import Mathlib

/-!
Shallow embedding of `src/main.js` (a DNS forwarding proxy with an in-memory
TTL cache): the data model, the cache operations, the per-datagram handler of
`server.on("message")`, and the `fetchWithRetry` helper, together with
theorems about the cache/TTL/dispatch behaviour.

JavaScript numbers are modelled as exact rationals (`ℚ`): every numeric value
that actually occurs here (millisecond timestamps, TTL seconds and their
differences and quotients by 1000) is an exact rational, so no floating-point
rounding is lost in the modelled range.  Raw byte buffers and the external
`dns-packet` codec are out of scope (the model works at the decoded `Message`
boundary); `decode` failures are modelled as `none`/`error` outcomes.
-/

/-- A DNS question as decoded by the external codec (`dns-packet`):
`name`, `type`, `class` (the latter two are Lean keywords, hence
`qtype`/`qclass`; `dns-packet` decodes them as mnemonic strings). -/
structure Question where
  name : List Char
  qtype : List Char
  qclass : List Char
deriving DecidableEq

/-- An answer record `name`/`type`/`class`/`ttl`/`data`; `ttl` is a JS
number. -/
structure AnswerRecord where
  name : List Char
  atype : List Char
  aclass : List Char
  ttl : ℚ
  data : List Char
deriving DecidableEq

/-- A decoded DNS message: header id, opaque further header flags, the
question sequence and the answer sequence. -/
structure Message where
  id : ℕ
  flags : ℕ
  questions : List Question
  answers : List AnswerRecord
deriving DecidableEq

/-- JSON string escaping of one character (as in `JSON.stringify`): a double
quote or a backslash is preceded by a backslash, any other character is kept
as itself.  (Control-character escapes do not occur in the inputs relevant
here and are omitted.) -/
def escChar (c : Char) : List Char :=
  if c = '"' ∨ c = '\\' then ['\\', c] else [c]

/-- JSON string escaping of a character sequence. -/
def escChars : List Char → List Char
  | [] => []
  | c :: s => escChar c ++ escChars s

/-- A JSON string literal: the escaped body between double quotes. -/
def jsonString (s : List Char) : List Char :=
  '"' :: (escChars s ++ ['"'])

/-- `JSON.stringify` of one decoded question object: an object literal with
the keys `name`, `type`, `class` in insertion order and no whitespace. -/
def jsonQuestion (q : Question) : List Char :=
  '\x7b' :: '"' :: 'n' :: 'a' :: 'm' :: 'e' :: '"' :: ':' ::
    (jsonString q.name ++ (',' :: '"' :: 't' :: 'y' :: 'p' :: 'e' :: '"' :: ':' ::
      (jsonString q.qtype ++ (',' :: '"' :: 'c' :: 'l' :: 'a' :: 's' :: 's' :: '"' :: ':' ::
        (jsonString q.qclass ++ ['\x7d'])))))

/-- The comma-separated serializations of the questions (the inside of the
JSON array literal). -/
def jsonQuestionsAux : List Question → List Char
  | [] => []
  | [q] => jsonQuestion q
  | q :: q2 :: rest => jsonQuestion q ++ (',' :: jsonQuestionsAux (q2 :: rest))

/-- `getCacheKey` (src/main.js lines 45-48):
`JSON.stringify(query.questions)`. -/
def getCacheKey (query : Message) : List Char :=
  '[' :: (jsonQuestionsAux query.questions ++ [']'])

/-- `updateTTLs` (src/main.js lines 51-60): subtract the elapsed seconds from
every answer's TTL, clamping at 0 (`Math.max(0, answer.ttl - elapsedSeconds)`);
every other answer field is kept unchanged by the object spread. -/
def updateTTLs (packet : Message) (elapsedSeconds : ℚ) : Message :=
  { packet with answers := packet.answers.map fun answer =>
      { answer with ttl := max 0 (answer.ttl - elapsedSeconds) } }

/-- One step of `Math.min` over its argument list. -/
def mathMinStep (acc : Option ℚ) (t : ℚ) : Option ℚ :=
  match acc with
  | none => some t
  | some m => some (min m t)

/-- `Math.min(...list)`: `none` stands for `Infinity`, the result on an empty
argument list. -/
def mathMin (l : List ℚ) : Option ℚ :=
  l.foldl mathMinStep none

/-- The comparison `x < minTTL` where `minTTL` may be `Infinity` (`none`):
every finite number is `< Infinity`. -/
def ltMathMin (x : ℚ) : Option ℚ → Bool
  | none => true
  | some m => decide (x < m)

/-- Whether `p` occurs at the start of `s`. -/
def startsWithChars : List Char → List Char → Bool
  | _, [] => true
  | [], _ :: _ => false
  | c :: s, d :: p => c == d && startsWithChars s p

/-- `s.indexOf(p) != -1`: `p` occurs contiguously somewhere in `s`. -/
def containsChars : List Char → List Char → Bool
  | [], p => startsWithChars [] p
  | c :: s, p => startsWithChars (c :: s) p || containsChars s p

/-- The override test (src/main.js line 144):
`query.questions.find((q) => q.name.indexOf(process.env.OMIT) != -1)`,
used for its truthiness. -/
def matchesOmit (query : Message) (OMIT : List Char) : Bool :=
  query.questions.any fun q => containsChars q.name OMIT

/-- The configured DoH endpoints `DOH_URLS` (src/main.js line 26). -/
def DOH_URLS : List (List Char) :=
  ["https://1.1.1.1/dns-query".data, "https://8.8.8.8/dns-query".data]

/-- `DOH_URLS[Math.floor(Math.random() * DOH_URLS.length)]` (line 176), as a
function of the random draw `r = Math.random()`. -/
def chooseDohUrl (r : ℚ) : List Char :=
  DOH_URLS.getD (Int.toNat ⌊r * (DOH_URLS.length : ℚ)⌋) []

/-- One cache slot (line 35): the decoded packet plus the `Date.now()`
insertion timestamp in milliseconds. -/
structure CacheEntry where
  packet : Message
  timestamp : ℚ
deriving DecidableEq

/-- The in-memory cache object `cache` (line 36): a key/value mapping. -/
abbrev Cache := List (List Char × CacheEntry)

/-- The read `cache[key]`. -/
def cacheGet : Cache → List Char → Option CacheEntry
  | [], _ => none
  | (k, e) :: rest, key => if k = key then some e else cacheGet rest key

/-- `delete cache[key]`. -/
def cacheDelete : Cache → List Char → Cache
  | [], _ => []
  | (k, e) :: rest, key =>
      if k = key then cacheDelete rest key else (k, e) :: cacheDelete rest key

/-- The write `cache[key] = entry` (unconditional overwrite). -/
def cacheSet (c : Cache) (key : List Char) (e : CacheEntry) : Cache :=
  (key, e) :: cacheDelete c key

/-- The observable outcome of one `fetchWithRetry` call on the DoH path: the
`ok` flag and `status` of the HTTP response, and the decode result of its
body (`none` = `decode` threw at line 196). -/
structure FetchResponse where
  ok : Bool
  status : ℕ
  body : Option Message
deriving DecidableEq

/-- The external inputs of one datagram's processing: the `OMIT` environment
variable, the `Math.random()` draw, the decode result of the single secondary
(8.8.8.8) reply datagram (`none` = `decode` threw at line 202), and the
outcome of the DoH call as a function of the URL it is issued against. -/
structure Env where
  OMIT : List Char
  rand : ℚ
  secondaryReply : Option Message
  dohFetch : List Char → Except (List Char) FetchResponse

/-- What one run of the `server.on("message")` handler does: the message
encoded and sent back (`none` = no reply), the final state of `cache`, and
whether the "Serving response from cache." path was taken. -/
structure HandlerResult where
  reply : Option Message
  cache : Cache
  servedFromCache : Bool
deriving DecidableEq

/-- Lines 205-216: `cache[cacheKey] = ...dohPacket...` followed by
`dohPacket.id = query.id`, encode, send.  The stored object and the sent
object are the same object in the source, so after the in-place id overwrite
the cached packet also carries the client's id; the model stores that final
value. -/
def storeAndReply (cache : Cache) (cacheKey : List Char) (query : Message)
    (now : ℚ) (dohPacket : Message) : HandlerResult :=
  let finalPacket := { dohPacket with id := query.id }
  { reply := some finalPacket
    cache := cacheSet cache cacheKey { packet := finalPacket, timestamp := now }
    servedFromCache := false }

/-- Lines 140-219: the resolution phase, reached when the cache gave no valid
hit.  A thrown error anywhere in the `try` block is caught at line 217: no
reply is sent and the cache is untouched.  The branches model, in order: the
override (8.8.8.8) path with its decode; the exhausted `fetchWithRetry`
throw; the non-`ok` status throw at line 191; the failed decode of the DoH
body (early `return` at line 199); and the successful store-and-send. -/
def resolveAndRespond (env : Env) (cache : Cache) (query : Message)
    (cacheKey : List Char) (now : ℚ) : HandlerResult :=
  if matchesOmit query env.OMIT = true then
    match env.secondaryReply with
    | none => { reply := none, cache := cache, servedFromCache := false }
    | some packet => storeAndReply cache cacheKey query now packet
  else
    match env.dohFetch (chooseDohUrl env.rand) with
    | Except.error _ => { reply := none, cache := cache, servedFromCache := false }
    | Except.ok response =>
        if response.ok = false then
          { reply := none, cache := cache, servedFromCache := false }
        else
          match response.body with
          | none => { reply := none, cache := cache, servedFromCache := false }
          | some dohPacket => storeAndReply cache cacheKey query now dohPacket

/-- Lines 94-219: one run of the `server.on("message")` handler for an
already decoded `query` at wall-clock time `now` (ms).  On a cached entry the
elapsed seconds are `(Date.now() - cached.timestamp) / 1000` and the entry is
valid when that is `<` the minimum original TTL; a valid hit serves a deep
copy (`JSON.parse(JSON.stringify(cached.packet))`, the identity under the
value semantics of this model) with decayed TTLs and the client's id; an
expired entry is deleted and the handler falls through to resolution. -/
def handleMessage (env : Env) (cache : Cache) (query : Message) (now : ℚ) :
    HandlerResult :=
  let cacheKey := getCacheKey query
  match cacheGet cache cacheKey with
  | some cached =>
      let elapsedSeconds : ℚ := (now - cached.timestamp) / 1000
      let minTTL := mathMin (cached.packet.answers.map AnswerRecord.ttl)
      if ltMathMin elapsedSeconds minTTL = true then
        { reply := some { updateTTLs cached.packet elapsedSeconds with id := query.id }
          cache := cache
          servedFromCache := true }
      else
        resolveAndRespond env (cacheDelete cache cacheKey) query cacheKey now
  | none => resolveAndRespond env cache query cacheKey now

/-- The events observable from one `fetchWithRetry` call: an attempt issued
with its per-attempt timeout (ms), and a backoff sleep (ms). -/
inductive FetchEvent
  | attempt (n : ℕ) (timeoutMs : ℕ)
  | sleep (ms : ℕ)
deriving DecidableEq

/-- The message of the `TypeError` thrown at line 77: inside the catch block
the `console.warn` template literal evaluates
`decode(options.body).questions[0].name`, and when the decoded body has no
questions `questions[0]` is `undefined`, so reading `.name` throws.  The
error text is opaque to the model; what matters is that it is the TypeError
of the logging statement, not the attempt error caught by the block. -/
def nameTypeError : List Char := "TypeError".data

/-- The `for (let attempt = 1; attempt <= retries; attempt++)` loop of
`fetchWithRetry` (lines 63-87), with `rem + 1 = retries + 1 - attempt` many
iterations still allowed; `f n` is the outcome of the `n`-th fetch attempt
(each issued with `AbortSignal.timeout(timeout)`), and `body` is the decoded
request body `decode(options.body)` (the raw client query, already decoded
once by the handler, so this second decode cannot throw).  On an attempt
error the catch block first evaluates the `console.warn` argument (line 77);
when `body` has no questions that evaluation itself throws a `TypeError`
which escapes the loop at once: no backoff, no further attempt, and the
TypeError — not the attempt error — propagates.  Otherwise the loop
rethrows the attempt error when `attempt === retries` (here `rem = 0`) and
else sleeps 500 ms and retries.  Result `none` models the loop falling
through (only possible when `retries = 0`: the function returns
`undefined`). -/
def fetchWithRetryGo (body : Message) (f : ℕ → Except (List Char) FetchResponse)
    (timeout : ℕ) :
    ℕ → ℕ → Option (Except (List Char) FetchResponse) × List FetchEvent
  | _, 0 => (none, [])
  | attempt, rem + 1 =>
      match f attempt with
      | Except.ok r => (some (Except.ok r), [FetchEvent.attempt attempt timeout])
      | Except.error e =>
          if body.questions = [] then
            (some (Except.error nameTypeError), [FetchEvent.attempt attempt timeout])
          else if rem = 0 then
            (some (Except.error e), [FetchEvent.attempt attempt timeout])
          else
            let next := fetchWithRetryGo body f timeout (attempt + 1) rem
            (next.1, FetchEvent.attempt attempt timeout :: FetchEvent.sleep 500 :: next.2)

/-- `fetchWithRetry(url, options, retries, timeout)` (lines 63-87),
abstracted over the per-attempt fetch outcome `f`; `body` is the decoded
`options.body` and attempts count from 1. -/
def fetchWithRetry (body : Message) (f : ℕ → Except (List Char) FetchResponse)
    (retries timeout : ℕ) :
    Option (Except (List Char) FetchResponse) × List FetchEvent :=
  fetchWithRetryGo body f timeout 1 retries

/-! ## Basic lemmas about the model -/

lemma cacheGet_cacheDelete (c : Cache) (k : List Char) :
    cacheGet (cacheDelete c k) k = none := by
  induction c with
  | nil => rfl
  | cons kv rest ih =>
      obtain ⟨k', e⟩ := kv
      by_cases h : k' = k
      · simpa [cacheDelete, h] using ih
      · simp [cacheDelete, h, cacheGet, ih]

lemma cacheGet_cacheSet (c : Cache) (k : List Char) (e : CacheEntry) :
    cacheGet (cacheSet c k e) k = some e := by
  simp [cacheSet, cacheGet]

lemma ltMathMin_foldl (x m : ℚ) (l : List ℚ) :
    ltMathMin x (l.foldl mathMinStep (some m)) = true ↔ x < m ∧ ∀ t ∈ l, x < t := by
  induction l generalizing m with
  | nil => simp [ltMathMin]
  | cons t l ih =>
      simp only [List.foldl_cons, mathMinStep]
      rw [ih]
      simp [lt_min_iff, List.forall_mem_cons, and_assoc]

lemma ltMathMin_mathMin (x : ℚ) (l : List ℚ) :
    ltMathMin x (mathMin l) = true ↔ ∀ t ∈ l, x < t := by
  cases l with
  | nil => simp [mathMin, ltMathMin]
  | cons t l =>
      simp only [mathMin, List.foldl_cons, mathMinStep]
      rw [ltMathMin_foldl]
      simp [List.forall_mem_cons]

lemma resolveAndRespond_served (env : Env) (c : Cache) (q : Message)
    (k : List Char) (n : ℚ) :
    (resolveAndRespond env c q k n).servedFromCache = false := by
  unfold resolveAndRespond storeAndReply
  split
  · split <;> rfl
  · split
    · rfl
    · split
      · rfl
      · split <;> rfl

lemma handleMessage_none (env : Env) (cache : Cache) (query : Message) (now : ℚ)
    (h : cacheGet cache (getCacheKey query) = none) :
    handleMessage env cache query now =
      resolveAndRespond env cache query (getCacheKey query) now := by
  simp [handleMessage, h]

lemma handleMessage_hit (env : Env) (cache : Cache) (query : Message) (now : ℚ)
    (entry : CacheEntry)
    (h : cacheGet cache (getCacheKey query) = some entry)
    (hv : ltMathMin ((now - entry.timestamp) / 1000)
        (mathMin (entry.packet.answers.map AnswerRecord.ttl)) = true) :
    handleMessage env cache query now =
      { reply := some { updateTTLs entry.packet ((now - entry.timestamp) / 1000) with
            id := query.id }
        cache := cache
        servedFromCache := true } := by
  simp [handleMessage, h, hv]

lemma handleMessage_stale (env : Env) (cache : Cache) (query : Message) (now : ℚ)
    (entry : CacheEntry)
    (h : cacheGet cache (getCacheKey query) = some entry)
    (hv : ltMathMin ((now - entry.timestamp) / 1000)
        (mathMin (entry.packet.answers.map AnswerRecord.ttl)) = false) :
    handleMessage env cache query now =
      resolveAndRespond env (cacheDelete cache (getCacheKey query)) query
        (getCacheKey query) now := by
  simp [handleMessage, h, hv]

lemma storeAndReply_reply (c : Cache) (k : List Char) (q : Message) (n : ℚ)
    (d : Message) :
    (storeAndReply c k q n d).reply = some { d with id := q.id } := rfl

lemma storeAndReply_cache (c : Cache) (k : List Char) (q : Message) (n : ℚ)
    (d : Message) :
    (storeAndReply c k q n d).cache =
      cacheSet c k { packet := { d with id := q.id }, timestamp := n } := rfl

lemma resolveAndRespond_cases (env : Env) (c : Cache) (q : Message)
    (k : List Char) (n : ℚ) :
    (∃ d : Message, resolveAndRespond env c q k n = storeAndReply c k q n d) ∨
    resolveAndRespond env c q k n = ⟨none, c, false⟩ := by
  unfold resolveAndRespond
  by_cases hm : matchesOmit q env.OMIT = true
  · rw [if_pos hm]
    rcases hs : env.secondaryReply with _ | packet
    · exact Or.inr rfl
    · exact Or.inl ⟨packet, rfl⟩
  · rw [if_neg hm]
    rcases hf : env.dohFetch (chooseDohUrl env.rand) with e | r
    · exact Or.inr rfl
    · obtain ⟨rok, rstatus, rbody⟩ := r
      cases rok
      · exact Or.inr rfl
      · cases rbody
        · exact Or.inr rfl
        · exact Or.inl ⟨_, rfl⟩

lemma resolveAndRespond_reply_id (env : Env) (c : Cache) (q : Message)
    (k : List Char) (n : ℚ) (p : Message)
    (h : (resolveAndRespond env c q k n).reply = some p) : p.id = q.id := by
  rcases resolveAndRespond_cases env c q k n with ⟨d, hd⟩ | hd <;> rw [hd] at h
  · rw [storeAndReply_reply] at h
    simp only [Option.some.injEq] at h
    rw [← h]
  · simp at h

/-! ## Claim theorems -/

/-- C2: for a cached entry with at least one answer record, the lookup serves
from cache exactly when the elapsed seconds `(now - timestamp) / 1000` are
below every answer's TTL (i.e. below the minimum TTL over the answers); once
some answer's TTL has been reached, the handler equals the resolution phase
run on the cache with the key deleted, the key is gone from the mapping, and
a lookup on that shrunken cache also misses (for any later time), until the
key is repopulated. -/
theorem cache_expiry_boundary (env : Env) (cache : Cache) (query : Message)
    (now : ℚ) (entry : CacheEntry)
    (hfind : cacheGet cache (getCacheKey query) = some entry)
    (_hne : entry.packet.answers ≠ []) :
    ((handleMessage env cache query now).servedFromCache = true ↔
      ∀ a ∈ entry.packet.answers, (now - entry.timestamp) / 1000 < a.ttl) ∧
    ((∃ a ∈ entry.packet.answers, a.ttl ≤ (now - entry.timestamp) / 1000) →
      handleMessage env cache query now =
        resolveAndRespond env (cacheDelete cache (getCacheKey query)) query
          (getCacheKey query) now ∧
      cacheGet (cacheDelete cache (getCacheKey query)) (getCacheKey query) = none ∧
      ∀ now2 : ℚ,
        (handleMessage env (cacheDelete cache (getCacheKey query)) query
          now2).servedFromCache = false) := by
  have hiff : ltMathMin ((now - entry.timestamp) / 1000)
      (mathMin (entry.packet.answers.map AnswerRecord.ttl)) = true ↔
      ∀ a ∈ entry.packet.answers, (now - entry.timestamp) / 1000 < a.ttl := by
    rw [ltMathMin_mathMin]
    simp
  constructor
  · by_cases hv : ltMathMin ((now - entry.timestamp) / 1000)
        (mathMin (entry.packet.answers.map AnswerRecord.ttl)) = true
    · rw [handleMessage_hit env cache query now entry hfind hv]
      simpa using hiff.mp hv
    · rw [handleMessage_stale env cache query now entry hfind (by simpa using hv)]
      simp only [resolveAndRespond_served, Bool.false_eq_true, false_iff]
      rw [← hiff]
      exact hv
  · rintro ⟨a, ha, hle⟩
    have hv : ¬ ltMathMin ((now - entry.timestamp) / 1000)
        (mathMin (entry.packet.answers.map AnswerRecord.ttl)) = true := by
      rw [hiff]
      push_neg
      exact ⟨a, ha, hle⟩
    refine ⟨handleMessage_stale env cache query now entry hfind (by simpa using hv),
      cacheGet_cacheDelete cache (getCacheKey query), ?_⟩
    intro now2
    rw [handleMessage_none env (cacheDelete cache (getCacheKey query)) query now2
      (cacheGet_cacheDelete cache (getCacheKey query))]
    exact resolveAndRespond_served env (cacheDelete cache (getCacheKey query)) query
      (getCacheKey query) now2

/-- Concrete inputs for the C2 witness: a one-entry cache whose single answer
has TTL 10 s, inserted at time 0 and looked up at 20000 ms (elapsed 20 s). -/
def queryC2 : Message := ⟨7, 0, [], []⟩

def entryC2 : CacheEntry := ⟨⟨1, 0, [], [⟨[], [], [], 10, []⟩]⟩, 0⟩

def cacheC2 : Cache := [(getCacheKey queryC2, entryC2)]

def envC2 : Env := ⟨['z'], 0, none, fun _ => Except.error []⟩

theorem cache_expiry_boundary_witness :
    (cacheGet cacheC2 (getCacheKey queryC2) = some entryC2 ∧
      entryC2.packet.answers ≠ [] ∧
      ∃ a ∈ entryC2.packet.answers, a.ttl ≤ ((20000 : ℚ) - entryC2.timestamp) / 1000) ∧
    cacheGet (cacheDelete cacheC2 (getCacheKey queryC2)) (getCacheKey queryC2) = none := by
  have hex : ∃ a ∈ entryC2.packet.answers,
      a.ttl ≤ ((20000 : ℚ) - entryC2.timestamp) / 1000 := by
    refine ⟨⟨[], [], [], 10, []⟩, by simp [entryC2], ?_⟩
    norm_num [entryC2]
  exact ⟨⟨rfl, by simp [entryC2], hex⟩,
    ((cache_expiry_boundary envC2 cacheC2 queryC2 20000 entryC2 rfl
      (by simp [entryC2])).2 hex).2.1⟩

/-- C4: every reply the handler sends — served from cache or freshly resolved
over either upstream path — carries the requesting query's header id, not the
id stored in the cache entry or returned by the upstream. -/
theorem reply_id_matches_query (env : Env) (cache : Cache) (query : Message)
    (now : ℚ) (p : Message)
    (h : (handleMessage env cache query now).reply = some p) :
    p.id = query.id := by
  rcases hfind : cacheGet cache (getCacheKey query) with _ | entry
  · rw [handleMessage_none env cache query now hfind] at h
    exact resolveAndRespond_reply_id env cache query (getCacheKey query) now p h
  · by_cases hv : ltMathMin ((now - entry.timestamp) / 1000)
        (mathMin (entry.packet.answers.map AnswerRecord.ttl)) = true
    · rw [handleMessage_hit env cache query now entry hfind hv] at h
      simp only [Option.some.injEq] at h
      rw [← h]
    · rw [handleMessage_stale env cache query now entry hfind (by simpa using hv)] at h
      exact resolveAndRespond_reply_id env (cacheDelete cache (getCacheKey query))
        query (getCacheKey query) now p h

/-- Concrete inputs for the C4 witness: an empty cache and a query that takes
the override path; the upstream reply carries id 3, the query id 9. -/
def queryC4 : Message := ⟨9, 0, [⟨['a'], ['A'], ['I', 'N']⟩], []⟩

def packetC4 : Message := ⟨3, 0, [], []⟩

def envC4 : Env := ⟨['a'], 0, some packetC4, fun _ => Except.error []⟩

theorem reply_id_matches_query_witness :
    (handleMessage envC4 [] queryC4 0).reply = some { packetC4 with id := queryC4.id } ∧
    ({ packetC4 with id := queryC4.id } : Message).id = queryC4.id :=
  ⟨rfl, reply_id_matches_query envC4 [] queryC4 0 _ rfl⟩

/-- C8: serving a cache hit leaves the cache untouched: the handler's final
cache is the input cache, hence the stored entry under the query's key — its
packet (answers, TTLs, id) and its insertion timestamp — is identical to
before the lookup.  (In the source the hit path works on a deep copy,
`JSON.parse(JSON.stringify(cached.packet))`, so the TTL decay and the id
overwrite never touch the stored object.) -/
theorem cache_hit_frame (env : Env) (cache : Cache) (query : Message) (now : ℚ)
    (hhit : (handleMessage env cache query now).servedFromCache = true) :
    (handleMessage env cache query now).cache = cache ∧
    cacheGet (handleMessage env cache query now).cache (getCacheKey query) =
      cacheGet cache (getCacheKey query) := by
  rcases hfind : cacheGet cache (getCacheKey query) with _ | entry
  · rw [handleMessage_none env cache query now hfind] at hhit
    simp [resolveAndRespond_served] at hhit
  · by_cases hv : ltMathMin ((now - entry.timestamp) / 1000)
        (mathMin (entry.packet.answers.map AnswerRecord.ttl)) = true
    · rw [handleMessage_hit env cache query now entry hfind hv]
      exact ⟨rfl, hfind⟩
    · rw [handleMessage_stale env cache query now entry hfind (by simpa using hv)] at hhit
      simp [resolveAndRespond_served] at hhit

/-- Concrete inputs for the C8 witness: a one-entry cache hit at 5000 ms
(the entry has no answers, so the hit is immediate). -/
def queryC8 : Message := ⟨4, 0, [], []⟩

def entryC8 : CacheEntry := ⟨⟨2, 0, [], []⟩, 0⟩

def cacheC8 : Cache := [(getCacheKey queryC8, entryC8)]

def envC8 : Env := ⟨['z'], 0, none, fun _ => Except.error []⟩

theorem cache_hit_frame_witness :
    (handleMessage envC8 cacheC8 queryC8 5000).servedFromCache = true ∧
    (handleMessage envC8 cacheC8 queryC8 5000).cache = cacheC8 :=
  ⟨rfl, (cache_hit_frame envC8 cacheC8 queryC8 5000 rfl).1⟩

/-- C1 (amended): on every cache hit the returned answers are exactly the
stored answers with `ttl` replaced by `max 0 (ttl - elapsedSeconds)`, where
`elapsedSeconds = (now - timestamp) / 1000` is used exactly — no floor is
applied, so a fractional elapsed time yields a fractional TTL — and every
other answer field, and the rest of the packet apart from the id, is
unchanged. -/
theorem hit_ttl_decay (env : Env) (cache : Cache) (query : Message) (now : ℚ)
    (entry : CacheEntry)
    (hfind : cacheGet cache (getCacheKey query) = some entry)
    (hserved : (handleMessage env cache query now).servedFromCache = true)
    (_hel : 0 ≤ (now - entry.timestamp) / 1000) :
    (handleMessage env cache query now).reply = some
      { entry.packet with
        id := query.id
        answers := entry.packet.answers.map fun a =>
          { a with ttl := max 0 (a.ttl - (now - entry.timestamp) / 1000) } } := by
  by_cases hv : ltMathMin ((now - entry.timestamp) / 1000)
      (mathMin (entry.packet.answers.map AnswerRecord.ttl)) = true
  · rw [handleMessage_hit env cache query now entry hfind hv]
    rfl
  · rw [handleMessage_stale env cache query now entry hfind (by simpa using hv)] at hserved
    simp [resolveAndRespond_served] at hserved

/-- Concrete inputs for C1: one cached answer with TTL 10 s inserted at time
0, looked up at 1500 ms, i.e. 1.5 elapsed seconds. -/
def queryC1 : Message := ⟨7, 0, [], []⟩

def answerC1 : AnswerRecord := ⟨['x'], ['A'], ['I', 'N'], 10, []⟩

def entryC1 : CacheEntry := ⟨⟨1, 0, [], [answerC1]⟩, 0⟩

def cacheC1 : Cache := [(getCacheKey queryC1, entryC1)]

def envC1 : Env := ⟨['z'], 0, none, fun _ => Except.error []⟩

lemma hitC1 : ltMathMin (((1500 : ℚ) - entryC1.timestamp) / 1000)
    (mathMin (entryC1.packet.answers.map AnswerRecord.ttl)) = true := by
  rw [ltMathMin_mathMin]
  intro t ht
  simp only [entryC1, answerC1, List.map_cons, List.map_nil, List.mem_singleton] at ht
  rw [ht]
  norm_num [entryC1]

theorem hit_ttl_decay_witness :
    (cacheGet cacheC1 (getCacheKey queryC1) = some entryC1 ∧
      (handleMessage envC1 cacheC1 queryC1 1500).servedFromCache = true ∧
      0 ≤ ((1500 : ℚ) - entryC1.timestamp) / 1000) ∧
    (handleMessage envC1 cacheC1 queryC1 1500).reply = some
      { entryC1.packet with
        id := queryC1.id
        answers := entryC1.packet.answers.map fun a =>
          { a with ttl := max 0 (a.ttl - ((1500 : ℚ) - entryC1.timestamp) / 1000) } } := by
  have hserved : (handleMessage envC1 cacheC1 queryC1 1500).servedFromCache = true := by
    rw [handleMessage_hit envC1 cacheC1 queryC1 1500 entryC1 rfl hitC1]
  exact ⟨⟨rfl, hserved, by norm_num [entryC1]⟩,
    hit_ttl_decay envC1 cacheC1 queryC1 1500 entryC1 rfl hserved (by norm_num [entryC1])⟩

/-- C1 counterexample: after 1.5 elapsed seconds the served TTL is
`10 - 1.5 = 17/2`, not the `max 0 (10 - floor(1.5)) = 9` that the claim's
floored formula predicts. -/
theorem hit_ttl_decay_counterexample :
    ((handleMessage envC1 cacheC1 queryC1 1500).reply.map fun p =>
        p.answers.map AnswerRecord.ttl) = some [17 / 2] ∧
    ¬ ((17 : ℚ) / 2 =
        max 0 (answerC1.ttl - (⌊((1500 : ℚ) - entryC1.timestamp) / 1000⌋ : ℚ))) := by
  constructor
  · rw [handleMessage_hit envC1 cacheC1 queryC1 1500 entryC1 rfl hitC1]
    simp only [Option.map_some, Option.some.injEq, updateTTLs, entryC1, answerC1,
      List.map_cons, List.map_nil]
    norm_num
  · have hfl : (⌊((1500 : ℚ) - entryC1.timestamp) / 1000⌋ : ℤ) = 1 := by
      rw [show ((1500 : ℚ) - entryC1.timestamp) / 1000 = 3 / 2 by norm_num [entryC1]]
      rw [Int.floor_eq_iff]
      norm_num
    rw [hfl]
    norm_num [answerC1]

/-- C3 (amended): a cached entry whose packet has zero answer records is
*always* served as a valid hit — `Math.min()` of no arguments is `Infinity`,
so the validity test `elapsedSeconds < minTTL` holds for every elapsed time:
the entry never expires, the reply is the stored (answerless) packet with the
client's id, and upstream resolution is never reached (the cache is left
unchanged). -/
theorem empty_answers_always_hit (env : Env) (cache : Cache) (query : Message)
    (now : ℚ) (entry : CacheEntry)
    (hfind : cacheGet cache (getCacheKey query) = some entry)
    (hempty : entry.packet.answers = []) :
    (handleMessage env cache query now).servedFromCache = true ∧
    (handleMessage env cache query now).reply =
      some { entry.packet with id := query.id } ∧
    (handleMessage env cache query now).cache = cache := by
  have hv : ltMathMin ((now - entry.timestamp) / 1000)
      (mathMin (entry.packet.answers.map AnswerRecord.ttl)) = true := by
    rw [hempty]
    rfl
  have hupd : updateTTLs entry.packet ((now - entry.timestamp) / 1000) = entry.packet := by
    unfold updateTTLs
    rw [hempty]
    simp only [List.map_nil]
    rw [← hempty]
  rw [handleMessage_hit env cache query now entry hfind hv]
  refine ⟨rfl, ?_, rfl⟩
  show some { updateTTLs entry.packet ((now - entry.timestamp) / 1000) with
    id := query.id } = some { entry.packet with id := query.id }
  rw [hupd]

/-- Concrete inputs for C3: a cached entry with zero answer records, looked
up about 11.5 days (999999999 ms) after insertion. -/
def queryC3 : Message := ⟨5, 0, [], []⟩

def entryC3 : CacheEntry := ⟨⟨2, 0, [], []⟩, 0⟩

def cacheC3 : Cache := [(getCacheKey queryC3, entryC3)]

def envC3 : Env := ⟨['z'], 0, none, fun _ => Except.error []⟩

/-- C3 counterexample: an entry with zero answers is served as a valid hit
(with a reply) even after 999999999 ms, contradicting "lookup never returns a
valid hit / degenerates to a miss". -/
theorem empty_answers_counterexample :
    cacheGet cacheC3 (getCacheKey queryC3) = some entryC3 ∧
    entryC3.packet.answers = [] ∧
    (handleMessage envC3 cacheC3 queryC3 999999999).servedFromCache = true ∧
    (handleMessage envC3 cacheC3 queryC3 999999999).reply =
      some { entryC3.packet with id := queryC3.id } :=
  ⟨rfl, rfl, rfl, rfl⟩

theorem empty_answers_always_hit_witness :
    (cacheGet cacheC3 (getCacheKey queryC3) = some entryC3 ∧
      entryC3.packet.answers = []) ∧
    (handleMessage envC3 cacheC3 queryC3 777777).servedFromCache = true :=
  ⟨⟨rfl, rfl⟩, (empty_answers_always_hit envC3 cacheC3 queryC3 777777 entryC3 rfl rfl).1⟩

/-- C6: when upstream resolution fails — the DoH call errors after its
retries are exhausted, or returns a non-`ok` status, or its payload (or the
secondary resolver's payload) fails to decode — the handler sends no reply
and the cache it was handed is left exactly as it was: no entry added,
removed or overwritten by the failed resolution. -/
theorem failed_resolution_frame (env : Env) (cache : Cache) (query : Message)
    (cacheKey : List Char) (now : ℚ)
    (hfail :
      (matchesOmit query env.OMIT = false ∧
        ((∃ e, env.dohFetch (chooseDohUrl env.rand) = Except.error e) ∨
         (∃ r, env.dohFetch (chooseDohUrl env.rand) = Except.ok r ∧ r.ok = false) ∨
         (∃ r, env.dohFetch (chooseDohUrl env.rand) = Except.ok r ∧ r.ok = true ∧
            r.body = none))) ∨
      (matchesOmit query env.OMIT = true ∧ env.secondaryReply = none)) :
    (resolveAndRespond env cache query cacheKey now).reply = none ∧
    (resolveAndRespond env cache query cacheKey now).cache = cache := by
  rcases hfail with ⟨hm, hcase⟩ | ⟨hm, hs⟩
  · rcases hcase with ⟨e, hf⟩ | ⟨r, hf, hok⟩ | ⟨r, hf, hok, hb⟩
    · rw [show resolveAndRespond env cache query cacheKey now = ⟨none, cache, false⟩ by
        unfold resolveAndRespond
        rw [if_neg (by simp [hm]), hf]]
      exact ⟨rfl, rfl⟩
    · rw [show resolveAndRespond env cache query cacheKey now = ⟨none, cache, false⟩ by
        unfold resolveAndRespond
        rw [if_neg (by simp [hm]), hf]
        simp [hok]]
      exact ⟨rfl, rfl⟩
    · rw [show resolveAndRespond env cache query cacheKey now = ⟨none, cache, false⟩ by
        unfold resolveAndRespond
        rw [if_neg (by simp [hm]), hf]
        simp [hok, hb]]
      exact ⟨rfl, rfl⟩
  · rw [show resolveAndRespond env cache query cacheKey now = ⟨none, cache, false⟩ by
      unfold resolveAndRespond
      rw [if_pos hm, hs]]
    exact ⟨rfl, rfl⟩

/-- Concrete inputs for C6: no question matches `OMIT` and the DoH call has
exhausted its retries; the cache holds one unrelated entry. -/
def queryC6 : Message := ⟨6, 0, [], []⟩

def cacheC6 : Cache := [(['k'], ⟨⟨1, 0, [], []⟩, 0⟩)]

def envC6 : Env := ⟨['z'], 0, none, fun _ => Except.error ['t', 'o']⟩

theorem failed_resolution_frame_witness :
    (matchesOmit queryC6 envC6.OMIT = false ∧
      envC6.dohFetch (chooseDohUrl envC6.rand) = Except.error ['t', 'o']) ∧
    (resolveAndRespond envC6 cacheC6 queryC6 (getCacheKey queryC6) 0).reply = none ∧
    (resolveAndRespond envC6 cacheC6 queryC6 (getCacheKey queryC6) 0).cache = cacheC6 :=
  ⟨⟨rfl, rfl⟩,
    failed_resolution_frame envC6 cacheC6 queryC6 (getCacheKey queryC6) 0
      (Or.inl ⟨rfl, Or.inl ⟨['t', 'o'], rfl⟩⟩)⟩

/-- C10: whenever the resolution phase sends a reply, the entry stored under
the cache key is exactly the replied packet with the current timestamp — in
the source the store and the send alias one object whose id is overwritten
in place after the store — so the cached message's header id equals the
client query's id, not the id carried by the upstream response. -/
theorem stored_packet_id (env : Env) (cache : Cache) (query : Message)
    (cacheKey : List Char) (now : ℚ) (p : Message)
    (h : (resolveAndRespond env cache query cacheKey now).reply = some p) :
    cacheGet (resolveAndRespond env cache query cacheKey now).cache cacheKey =
      some { packet := p, timestamp := now } ∧
    p.id = query.id := by
  rcases resolveAndRespond_cases env cache query cacheKey now with ⟨d, hd⟩ | hd <;>
    rw [hd] at h ⊢
  · rw [storeAndReply_reply] at h
    simp only [Option.some.injEq] at h
    rw [storeAndReply_cache, ← h]
    exact ⟨cacheGet_cacheSet cache cacheKey _, rfl⟩
  · simp at h

/-- Concrete inputs for C10: the override path succeeds with an upstream
packet carrying id 3 for a client query with id 8. -/
def queryC10 : Message := ⟨8, 0, [⟨['a'], ['A'], ['I', 'N']⟩], []⟩

def packetC10 : Message := ⟨3, 0, [], []⟩

def envC10 : Env := ⟨['a'], 0, some packetC10, fun _ => Except.error []⟩

theorem stored_packet_id_witness :
    (resolveAndRespond envC10 [] queryC10 ['k'] 42).reply =
      some { packetC10 with id := queryC10.id } ∧
    cacheGet (resolveAndRespond envC10 [] queryC10 ['k'] 42).cache ['k'] =
      some { packet := { packetC10 with id := queryC10.id }, timestamp := 42 } ∧
    ({ packetC10 with id := queryC10.id } : Message).id = queryC10.id :=
  ⟨rfl,
    (stored_packet_id envC10 [] queryC10 ['k'] 42 _ rfl).1,
    (stored_packet_id envC10 [] queryC10 ['k'] 42 _ rfl).2⟩

lemma resolveAndRespond_match (env : Env) (c : Cache) (q : Message)
    (k : List Char) (n : ℚ) (hm : matchesOmit q env.OMIT = true) :
    resolveAndRespond env c q k n =
      match env.secondaryReply with
      | none => ⟨none, c, false⟩
      | some packet => storeAndReply c k q n packet := by
  unfold resolveAndRespond
  rw [if_pos hm]

lemma resolveAndRespond_nomatch (env : Env) (c : Cache) (q : Message)
    (k : List Char) (n : ℚ) (hm : matchesOmit q env.OMIT = false) :
    resolveAndRespond env c q k n =
      match env.dohFetch (chooseDohUrl env.rand) with
      | Except.error _ => ⟨none, c, false⟩
      | Except.ok response =>
          if response.ok = false then ⟨none, c, false⟩
          else
            match response.body with
            | none => ⟨none, c, false⟩
            | some d => storeAndReply c k q n d := by
  unfold resolveAndRespond
  rw [if_neg (by simp [hm])]

/-- C5: if some question's name contains the configured `OMIT` pattern, the
query is resolved exclusively through the secondary UDP resolver — the
result does not depend on the DoH oracle at all (the encrypted-transport
path is never invoked), and the single secondary reply, re-idented, is what
is sent back; if no question matches, the secondary path is never consulted,
the result depends on the DoH oracle only at the single chosen endpoint, and
that endpoint is drawn uniformly from the two configured URLs: draws in
`[0, 1/2)` select the first URL and draws in `[1/2, 1)` the second. -/
theorem strategy_selection (env : Env) (cache : Cache) (query : Message)
    (cacheKey : List Char) (now : ℚ)
    (hr0 : 0 ≤ env.rand) (hr1 : env.rand < 1) :
    (matchesOmit query env.OMIT = true →
      (∀ f, resolveAndRespond { env with dohFetch := f } cache query cacheKey now =
        resolveAndRespond env cache query cacheKey now) ∧
      (∀ p, env.secondaryReply = some p →
        (resolveAndRespond env cache query cacheKey now).reply =
          some { p with id := query.id })) ∧
    (matchesOmit query env.OMIT = false →
      (∀ s, resolveAndRespond { env with secondaryReply := s } cache query cacheKey now =
        resolveAndRespond env cache query cacheKey now) ∧
      (∀ f g, f (chooseDohUrl env.rand) = g (chooseDohUrl env.rand) →
        resolveAndRespond { env with dohFetch := f } cache query cacheKey now =
          resolveAndRespond { env with dohFetch := g } cache query cacheKey now) ∧
      (env.rand < 1 / 2 → chooseDohUrl env.rand = "https://1.1.1.1/dns-query".data) ∧
      (1 / 2 ≤ env.rand → chooseDohUrl env.rand = "https://8.8.8.8/dns-query".data)) := by
  have hlen : ((DOH_URLS.length : ℕ) : ℚ) = 2 := by norm_num [DOH_URLS]
  constructor
  · intro hm
    constructor
    · intro f
      rw [resolveAndRespond_match { env with dohFetch := f } cache query cacheKey now hm,
        resolveAndRespond_match env cache query cacheKey now hm]
    · intro p hp
      rw [resolveAndRespond_match env cache query cacheKey now hm, hp]
      rfl
  · intro hm
    refine ⟨?_, ?_, ?_, ?_⟩
    · intro s
      rw [resolveAndRespond_nomatch { env with secondaryReply := s } cache query cacheKey
          now hm,
        resolveAndRespond_nomatch env cache query cacheKey now hm]
    · intro f g hfg
      rw [resolveAndRespond_nomatch { env with dohFetch := f } cache query cacheKey now hm,
        resolveAndRespond_nomatch { env with dohFetch := g } cache query cacheKey now hm]
      dsimp only
      rw [hfg]
    · intro hlt
      unfold chooseDohUrl
      rw [hlen]
      rw [show ⌊env.rand * (2 : ℚ)⌋ = 0 by
        rw [Int.floor_eq_zero_iff, Set.mem_Ico]
        constructor
        · exact mul_nonneg hr0 (by norm_num)
        · linarith]
      rfl
    · intro hge
      unfold chooseDohUrl
      rw [hlen]
      rw [show ⌊env.rand * (2 : ℚ)⌋ = 1 by
        rw [Int.floor_eq_iff]
        push_cast
        constructor <;> linarith]
      rfl

/-- Concrete inputs for C5: the single question name `ab` contains the
override pattern `b`; the secondary resolver answers with a packet whose id
(9) differs from the query id (2). -/
def queryC5 : Message := ⟨2, 0, [⟨['a', 'b'], ['A'], ['I', 'N']⟩], []⟩

def packetC5 : Message := ⟨9, 0, [], []⟩

def envC5 : Env := ⟨['b'], 0, some packetC5, fun _ => Except.error []⟩

theorem strategy_selection_witness :
    (0 ≤ envC5.rand ∧ envC5.rand < 1 ∧ matchesOmit queryC5 envC5.OMIT = true ∧
      envC5.secondaryReply = some packetC5) ∧
    (resolveAndRespond envC5 [] queryC5 ['k'] 0).reply =
      some { packetC5 with id := queryC5.id } := by
  refine ⟨⟨le_refl 0, by norm_num [envC5], rfl, rfl⟩, ?_⟩
  exact ((strategy_selection envC5 [] queryC5 ['k'] 0 (le_refl 0)
    (by norm_num [envC5])).1 rfl).2 packetC5 rfl

/-- Whether an event is a fetch attempt (as opposed to a backoff sleep). -/
def FetchEvent.isAttempt : FetchEvent → Bool
  | FetchEvent.attempt _ _ => true
  | FetchEvent.sleep _ => false

/-- C7 (amended): for a request body that decodes to at least one question —
so the logging statement in the catch block cannot throw — `fetchWithRetry`
called as in the source (`retries = 3`, `timeout = 5000`) performs at most 3
attempts, every attempt is issued with the 5000 ms per-attempt timeout and
every backoff sleep is exactly 500 ms (sleeps only separate consecutive
failed attempts); when all three attempts fail the call propagates the last
attempt's error after the trace attempt-sleep-attempt-sleep-attempt.  For a
zero-question body this fails: see the counterexample, where the catch
block's own `console.warn` argument throws a TypeError on the first failed
attempt. -/
theorem fetch_retry_budget (body : Message)
    (f : ℕ → Except (List Char) FetchResponse)
    (e1 e2 e3 : List Char) (hq : body.questions ≠ []) :
    (fetchWithRetry body f 3 5000).2.countP FetchEvent.isAttempt ≤ 3 ∧
    (∀ ev ∈ (fetchWithRetry body f 3 5000).2,
      (∃ n, ev = FetchEvent.attempt n 5000) ∨ ev = FetchEvent.sleep 500) ∧
    (f 1 = Except.error e1 → f 2 = Except.error e2 → f 3 = Except.error e3 →
      fetchWithRetry body f 3 5000 =
        (some (Except.error e3),
          [FetchEvent.attempt 1 5000, FetchEvent.sleep 500,
           FetchEvent.attempt 2 5000, FetchEvent.sleep 500,
           FetchEvent.attempt 3 5000])) := by
  refine ⟨?_, ?_, ?_⟩
  · rcases h1 : f 1 with ea | ra <;> rcases h2 : f 2 with eb | rb <;>
      rcases h3 : f 3 with ec | rc <;>
        simp [fetchWithRetry, fetchWithRetryGo, h1, h2, h3, hq, FetchEvent.isAttempt]
  · rcases h1 : f 1 with ea | ra <;> rcases h2 : f 2 with eb | rb <;>
      rcases h3 : f 3 with ec | rc <;>
        simp [fetchWithRetry, fetchWithRetryGo, h1, h2, h3, hq]
  · intro hh1 hh2 hh3
    simp [fetchWithRetry, fetchWithRetryGo, hh1, hh2, hh3, hq]

/-- C7 counterexample: for a body that decodes to zero questions (a legal
query that reaches the DoH path), the first failed attempt makes the catch
block itself throw: the call ends after a single attempt, with no 500 ms
backoff sleep, and propagates the logging TypeError instead of the attempt's
own error `['b']` — against the claimed 3-attempt/backoff/last-error
behaviour. -/
theorem fetch_retry_budget_counterexample :
    fetchWithRetry ⟨1, 0, [], []⟩ (fun _ => Except.error ['b']) 3 5000 =
      (some (Except.error nameTypeError), [FetchEvent.attempt 1 5000]) ∧
    nameTypeError ≠ ['b'] ∧
    FetchEvent.sleep 500 ∉
      (fetchWithRetry ⟨1, 0, [], []⟩ (fun _ => Except.error ['b']) 3 5000).2 :=
  ⟨rfl, by decide, by decide⟩

/-- Concrete body for the C7 witness: one question, so the catch block's
logging statement cannot throw. -/
def bodyC7 : Message := ⟨1, 0, [⟨['a'], ['A'], ['I', 'N']⟩], []⟩

theorem fetch_retry_budget_witness :
    (bodyC7.questions ≠ [] ∧
      (fun n => Except.error (List.replicate n 'x') :
        ℕ → Except (List Char) FetchResponse) 1 = Except.error ['x'] ∧
      (fun n => Except.error (List.replicate n 'x') :
        ℕ → Except (List Char) FetchResponse) 2 = Except.error ['x', 'x'] ∧
      (fun n => Except.error (List.replicate n 'x') :
        ℕ → Except (List Char) FetchResponse) 3 = Except.error ['x', 'x', 'x']) ∧
    fetchWithRetry bodyC7 (fun n => Except.error (List.replicate n 'x')) 3 5000 =
      (some (Except.error ['x', 'x', 'x']),
        [FetchEvent.attempt 1 5000, FetchEvent.sleep 500,
         FetchEvent.attempt 2 5000, FetchEvent.sleep 500,
         FetchEvent.attempt 3 5000]) :=
  ⟨⟨by decide, rfl, rfl, rfl⟩,
    (fetch_retry_budget bodyC7 (fun n => Except.error (List.replicate n 'x'))
      ['x'] ['x', 'x'] ['x', 'x', 'x'] (by decide)).2.2 rfl rfl rfl⟩

/-! ## Injectivity of the cache key in the question sequence -/

lemma escChar_spec (c : Char) :
    (¬(c = '"' ∨ c = '\\') ∧ escChar c = [c]) ∨
    ((c = '"' ∨ c = '\\') ∧ escChar c = ['\\', c]) := by
  by_cases h : c = '"' ∨ c = '\\'
  · exact Or.inr ⟨h, by simp [escChar, h]⟩
  · exact Or.inl ⟨h, by simp [escChar, h]⟩

lemma escChars_quote_cancel :
    ∀ s1 : List Char, ∀ {s2 r1 r2 : List Char},
      escChars s1 ++ '"' :: r1 = escChars s2 ++ '"' :: r2 → s1 = s2 ∧ r1 = r2 := by
  intro s1
  induction s1 with
  | nil =>
      intro s2 r1 r2 h
      cases s2 with
      | nil => simpa [escChars] using h
      | cons c t =>
          exfalso
          simp only [escChars, List.nil_append, List.append_assoc] at h
          rcases escChar_spec c with ⟨hq, he⟩ | ⟨hq, he⟩ <;> rw [he] at h
          · injection h with h1 _
            exact hq (Or.inl h1.symm)
          · injection h with h1 _
            exact absurd h1 (by decide)
  | cons c1 t1 ih =>
      intro s2 r1 r2 h
      cases s2 with
      | nil =>
          exfalso
          simp only [escChars, List.nil_append, List.append_assoc] at h
          rcases escChar_spec c1 with ⟨hq, he⟩ | ⟨hq, he⟩ <;> rw [he] at h
          · injection h with h1 _
            exact hq (Or.inl h1)
          · injection h with h1 _
            exact absurd h1 (by decide)
      | cons c2 t2 =>
          simp only [escChars, List.append_assoc] at h
          rcases escChar_spec c1 with ⟨hq1, he1⟩ | ⟨hq1, he1⟩ <;>
            rcases escChar_spec c2 with ⟨hq2, he2⟩ | ⟨hq2, he2⟩ <;>
              rw [he1, he2] at h
          · injection h with h1 h2
            obtain ⟨ht, hr⟩ := ih h2
            exact ⟨by rw [h1, ht], hr⟩
          · injection h with h1 _
            exact absurd (Or.inr h1) hq1
          · injection h with h1 _
            exact absurd (Or.inr h1.symm) hq2
          · injection h with _ h2
            injection h2 with h1 h2
            obtain ⟨ht, hr⟩ := ih h2
            exact ⟨by rw [h1, ht], hr⟩

lemma jsonString_cancel {s1 s2 r1 r2 : List Char}
    (h : jsonString s1 ++ r1 = jsonString s2 ++ r2) : s1 = s2 ∧ r1 = r2 := by
  simp only [jsonString, List.cons_append, List.append_assoc,
    List.singleton_append] at h
  injection h with _ h2
  exact escChars_quote_cancel s1 h2

lemma jsonQuestion_cancel {q1 q2 : Question} {r1 r2 : List Char}
    (h : jsonQuestion q1 ++ r1 = jsonQuestion q2 ++ r2) : q1 = q2 ∧ r1 = r2 := by
  obtain ⟨n1, t1, c1⟩ := q1
  obtain ⟨n2, t2, c2⟩ := q2
  simp only [jsonQuestion, List.cons_append, List.append_assoc,
    List.singleton_append, List.cons.injEq, true_and] at h
  obtain ⟨hname, h⟩ := jsonString_cancel h
  simp only [List.cons.injEq, true_and] at h
  obtain ⟨htype, h⟩ := jsonString_cancel h
  simp only [List.cons.injEq, true_and] at h
  obtain ⟨hclass, h⟩ := jsonString_cancel h
  simp only [List.cons.injEq, true_and] at h
  exact ⟨by simp [hname, htype, hclass], h⟩

lemma jsonQuestionsAux_cancel :
    ∀ qs1 : List Question, ∀ {qs2 : List Question} {r1 r2 : List Char},
      jsonQuestionsAux qs1 ++ ']' :: r1 = jsonQuestionsAux qs2 ++ ']' :: r2 →
      qs1 = qs2 ∧ r1 = r2 := by
  intro qs1
  induction qs1 with
  | nil =>
      intro qs2 r1 r2 h
      cases qs2 with
      | nil => simpa [jsonQuestionsAux] using h
      | cons q2 t2 =>
          exfalso
          cases t2 with
          | nil =>
              simp only [jsonQuestionsAux, List.nil_append, jsonQuestion,
                List.cons_append] at h
              injection h with h1 _
              exact absurd h1 (by decide)
          | cons q3 t3 =>
              simp only [jsonQuestionsAux, List.nil_append, jsonQuestion,
                List.cons_append, List.append_assoc] at h
              injection h with h1 _
              exact absurd h1 (by decide)
  | cons q1 t1 ih =>
      intro qs2 r1 r2 h
      cases qs2 with
      | nil =>
          exfalso
          cases t1 with
          | nil =>
              simp only [jsonQuestionsAux, List.nil_append, jsonQuestion,
                List.cons_append] at h
              injection h with h1 _
              exact absurd h1 (by decide)
          | cons q3 t3 =>
              simp only [jsonQuestionsAux, List.nil_append, jsonQuestion,
                List.cons_append, List.append_assoc] at h
              injection h with h1 _
              exact absurd h1 (by decide)
      | cons q2 t2 =>
          cases t1 with
          | nil =>
              cases t2 with
              | nil =>
                  simp only [jsonQuestionsAux] at h
                  obtain ⟨hq, hr⟩ := jsonQuestion_cancel h
                  injection hr with _ hr2
                  exact ⟨by rw [hq], hr2⟩
              | cons q4 t4 =>
                  simp only [jsonQuestionsAux, List.append_assoc] at h
                  obtain ⟨hq, hr⟩ := jsonQuestion_cancel h
                  exfalso
                  injection hr with h1 _
                  exact absurd h1 (by decide)
          | cons q3 t3 =>
              cases t2 with
              | nil =>
                  simp only [jsonQuestionsAux, List.append_assoc] at h
                  obtain ⟨hq, hr⟩ := jsonQuestion_cancel h
                  exfalso
                  injection hr with h1 _
                  exact absurd h1 (by decide)
              | cons q4 t4 =>
                  simp only [jsonQuestionsAux, List.append_assoc] at h
                  obtain ⟨hq, hr⟩ := jsonQuestion_cancel h
                  injection hr with _ hr2
                  obtain ⟨ht, hr3⟩ := ih hr2
                  exact ⟨by rw [hq, ht], hr3⟩

/-- C9: the cache key is determined by, and determines, the question
sequence: two decoded queries get the same key exactly when their question
sequences are equal (same order, same fields) — so queries differing only in
id, flags or answers share a key, while any difference in the question
sequence, including order, yields a different key. -/
theorem cache_key_of_questions (m1 m2 : Message) :
    getCacheKey m1 = getCacheKey m2 ↔ m1.questions = m2.questions := by
  constructor
  · intro h
    simp only [getCacheKey, List.cons.injEq, true_and] at h
    exact (jsonQuestionsAux_cancel m1.questions h).1
  · intro h
    simp only [getCacheKey, h]
